import Mathlib

/-!
Shallow embedding of `screener_recentIPOs.py` (class `IPOScraper`) and proofs
about its behaviour.

Modelling conventions:
* An HTML anchor (`<a>`) is its visible text plus its address (`href`).
* A table cell is its visible text plus the first anchor inside it, if any
  (`cell.find('a')`).
* A parsed page (`BeautifulSoup` object) is: the pagination div's anchors, if
  a `div.pagination` is present, and the body rows of the `table.data-table`,
  if such a table (with a `tbody`) is present; each body row is its list of
  `td` cells.
* Python exceptions are modelled with `Except PyErr`; a value that escapes the
  function uncaught is `.error e`.
* A Python `set` of strings is modelled as a duplicate-free list; iteration
  order of `list(s)` is modelled as the list order.
* Files are `Option` values: `none` means the file is absent.  The JSON dedup
  file holds a list of strings; the Excel output file holds a list of records.
* The network is deterministic during one run: each URL yields either a page
  (GET and `raise_for_status` succeed) or a request failure, identically on
  every attempt; this models an unchanged remote site.
-/

/-- Python exception kinds that the embedded code can raise. -/
inductive PyErr where
  | typeError
  | indexError
  | attributeError
  | keyError
  | valueError
deriving DecidableEq

/-- An HTML anchor element: visible text and `href` address. -/
structure Anchor where
  text : String
  href : String
deriving DecidableEq

/-- A table cell: visible text, and the first anchor inside it if any. -/
structure Cell where
  text : String
  anchor : Option Anchor
deriving DecidableEq

/-- A parsed HTML page: the pagination div's links (if the div exists) and the
data table's body rows (if the table exists), each row a list of cells. -/
structure Soup where
  pagination : Option (List Anchor)
  table : Option (List (List Cell))
deriving DecidableEq

/-- One scraped IPO record (the dict built in `_extract_ipo_data`). -/
structure IpoData where
  company : String
  companyLink : String
  listingDate : String
  ipoMCap : String
  ipoPrice : String
  currentPrice : String
  percentChange : String
deriving DecidableEq

/-- The on-disk state the scraper reads and writes: `ipo_data.xlsx` rows and
the `processed_ipos.json` list.  `none` = file absent. -/
structure FileState where
  outputFile : Option (List IpoData)
  processedFile : Option (List String)
deriving DecidableEq

/-- A write to disk performed at the end of a run, in order. -/
inductive WriteEvent where
  | writeOutput (rows : List IpoData)
  | writeProcessed (ids : List String)
deriving DecidableEq

/-- The remote site: the response to the initial `/ipo/recent/` GET, and the
response to `/ipo/recent/?page=n` for each `n`. -/
structure Site where
  initial : Option Soup
  pageAt : Nat → Option Soup

deriving instance DecidableEq for Except

/-- Observable behaviour of one `_make_request` call: how many GET attempts
were made, which backoff delays were actually slept (base part, jitter
omitted), and the outcome. -/
structure FetchTrace where
  attempts : Nat
  sleeps : List Nat
  result : Except PyErr (Option Soup)
deriving DecidableEq

/-! ### Python string primitives (ASCII-faithful models) -/

/-- Characters removed by Python `str.strip()` (ASCII whitespace). -/
def isPySpace (c : Char) : Bool :=
  c == ' ' || c == '\t' || c == '\n' || c == '\x0d' || c == '\x0b' || c == '\x0c'

/-- Python `str.strip()`: drop leading and trailing whitespace. -/
def pyStrip (s : String) : String :=
  ⟨((s.data.dropWhile isPySpace).reverse.dropWhile isPySpace).reverse⟩

/-- Fuel-driven worker for `pyReplace`; the pattern is nonempty at every use
site, and each step consumes at least one character, so `fuel = length`
suffices. -/
def pyReplaceAux (pat rep : List Char) : Nat → List Char → List Char
  | 0, l => l
  | _ + 1, [] => []
  | fuel + 1, c :: rest =>
    if pat.isPrefixOf (c :: rest) then
      rep ++ pyReplaceAux pat rep fuel (rest.drop (pat.length - 1))
    else
      c :: pyReplaceAux pat rep fuel rest

/-- Python `str.replace(pat, rep)` for a nonempty `pat`: replace every
(non-overlapping, leftmost-first) occurrence. -/
def pyReplace (s pat rep : String) : String :=
  ⟨pyReplaceAux pat.data rep.data s.data.length s.data⟩

/-- Fuel-driven worker for `pySplitOn` (nonempty separator). -/
def pySplitOnAux (sep : List Char) : Nat → List Char → List Char → List (List Char)
  | 0, acc, l => [acc.reverse ++ l]
  | _ + 1, acc, [] => [acc.reverse]
  | fuel + 1, acc, c :: rest =>
    if sep.isPrefixOf (c :: rest) then
      acc.reverse :: pySplitOnAux sep fuel [] (rest.drop (sep.length - 1))
    else
      pySplitOnAux sep fuel (c :: acc) rest

/-- Python `str.split(sep)` for a nonempty separator. -/
def pySplitOn (s sep : String) : List String :=
  (pySplitOnAux sep.data s.data.length [] s.data).map (fun l => ⟨l⟩)

/-- Worker for Python's substring test. -/
def pyInAux (needle : List Char) : List Char → Bool
  | [] => needle.isEmpty
  | c :: rest => needle.isPrefixOf (c :: rest) || pyInAux needle rest

/-- Python `needle in hay` on strings. -/
def pyIn (needle hay : String) : Bool :=
  pyInAux needle.data hay.data

/-- Accumulating decimal parser: `none` on any non-digit. -/
def parseDigitsAux : Nat → List Char → Option Nat
  | acc, [] => some acc
  | acc, c :: rest =>
    if c.isDigit then parseDigitsAux (acc * 10 + (c.toNat - 48)) rest
    else none

/-- Parse a nonempty all-digit string. -/
def parseDigits : List Char → Option Nat
  | [] => none
  | c :: rest => parseDigitsAux 0 (c :: rest)

/-- Python `int(s)` for ASCII sign-and-digit forms: surrounding whitespace is
ignored, one optional sign, then decimal digits; everything else raises
`ValueError`, modelled as `none`. -/
def pyInt (s : String) : Option Int :=
  match (pyStrip s).data with
  | '-' :: rest => (parseDigits rest).map (fun n => -(n : Int))
  | '+' :: rest => (parseDigits rest).map (fun n => (n : Int))
  | l => (parseDigits l).map (fun n => (n : Int))

/-! ### Python set (of strings) primitives -/

/-- Membership test `x in s` for the modelled set. -/
def pySetContains (s : List String) (x : String) : Bool :=
  match s with
  | [] => false
  | y :: rest => if y = x then true else pySetContains rest x

/-- `set.add(x)`: no-op if present, otherwise record `x`. -/
def pySetAdd (s : List String) (x : String) : List String :=
  if pySetContains s x then s else s ++ [x]

/-- Python `set(l)` for a list of strings: collapse duplicates. -/
def pySetOfList : List String → List String
  | [] => []
  | x :: rest =>
    if pySetContains rest x then pySetOfList rest else x :: pySetOfList rest

/-! ### String constants appearing in the source -/

/-- Default `base_url` of the scraper. -/
def base_url : String := "https://www.screener.in"

/-- The empty replacement string used when stripping the currency symbol. -/
def emptyString : String := ""

/-- The minus sign substituted for the downward glyph. -/
def minusSign : String := "-"

/-- The plus sign substituted for the upward glyph. -/
def plusSign : String := "+"

/-- The rupee currency symbol stripped from price cells. -/
def rupeeSign : String := "₹"

/-- The downward glyph replaced by a minus sign. -/
def downGlyph : String := "⇣"

/-- The upward glyph replaced by a plus sign. -/
def upGlyph : String := "⇡"

/-- The `page=` marker searched for in pagination hrefs. -/
def pageMarker : String := "page="

/-- The attribute name looked up on the `time` module at
`time.random() * 0.1`. -/
def randomName : String := "random"

/-- Modelled from the Python 3 standard library: the public names of the
`time` module (platform-independent subset).  The point that matters below:
the module defines no name `random`, so evaluating `time.random` raises
`AttributeError`. -/
def timeModuleNames : List String :=
  ["altzone", "asctime", "ctime", "daylight", "get_clock_info", "gmtime",
   "localtime", "mktime", "monotonic", "monotonic_ns", "perf_counter",
   "perf_counter_ns", "process_time", "process_time_ns", "sleep", "strftime",
   "strptime", "struct_time", "thread_time", "thread_time_ns", "time",
   "time_ns", "timezone", "tzname", "tzset"]

/-! ### `IPOScraper` methods -/

/-- `_load_processed_ipos` (lines 35-48).  The method reads
`self.processed_file`; `pathAttrSet` records whether that attribute exists at
call time.  In `__init__` the method is called on line 31, before
`self.processed_file` is assigned on line 33, so there `pathAttrSet = false`:
the attribute access raises `AttributeError`, which the blanket
`except Exception` catches (logging it), and the method returns `set()`.
With the attribute set, an absent file also yields `set()`, and a present
file yields `set(json.load(f))`. -/
def load_processed_ipos (pathAttrSet : Bool) (file : Option (List String)) :
    List String :=
  if pathAttrSet then
    match file with
    | some l => pySetOfList l
    | none => []
  else []

/-- `_save_processed_ipos` (lines 50-56): the JSON array written to the
dedup file, namely `list(self.processed_ipos)`. -/
def save_processed_ipos (processed : List String) : List String :=
  processed

/-- The page number `int(href.split('page=')[1])` yields for one pagination
link, `none` when `'page=' not in href` or when `int` raises `ValueError`
(which the loop catches with `continue`). -/
def hrefPageNumber (href : String) : Option Int :=
  if pyIn pageMarker href then
    match (pySplitOn href pageMarker).get? 1 with
    | some part => pyInt part
    | none => none
  else none

/-- `_extract_pagination_info` (lines 58-85): 1 when the pagination div is
absent, otherwise the running `max` (started at 1) over the page numbers
parsed from the links' hrefs. -/
def extract_pagination_info (soup : Soup) : Int :=
  match soup.pagination with
  | none => 1
  | some links =>
    links.foldl
      (fun maxPage link =>
        match hrefPageNumber link.href with
        | some n => max maxPage n
        | none => maxPage)
      1

/-- The page numbers that parse from a pagination div's links. -/
def pagesParsed (links : List Anchor) : List Int :=
  links.filterMap (fun a => hrefPageNumber a.href)

/-- `_extract_ipo_data` (lines 87-123).  `row.find_all('td')` empty, or no
anchor in the first cell: `return None`.  Otherwise the code reads
`cells[1]` … `cells[5]`, so a row of 1-5 cells raises `IndexError`;
with at least 6 cells it returns the `(ipo_id, ipo_data)` pair. -/
def extract_ipo_data (row : List Cell) : Except PyErr (Option (String × IpoData)) :=
  match row with
  | [] => .ok none
  | c0 :: rest =>
    match c0.anchor with
    | none => .ok none
    | some nameCell =>
      match rest with
      | c1 :: c2 :: c3 :: c4 :: c5 :: _ =>
        .ok (some
          (pyStrip nameCell.text ++ "_" ++ pyStrip c1.text,
           { company := pyStrip nameCell.text
             companyLink := base_url ++ nameCell.href
             listingDate := pyStrip c1.text
             ipoMCap := pyStrip c2.text
             ipoPrice := pyStrip (pyReplace c3.text rupeeSign emptyString)
             currentPrice := pyStrip (pyReplace c4.text rupeeSign emptyString)
             percentChange :=
               pyReplace (pyReplace (pyStrip c5.text) downGlyph minusSign)
                 upGlyph plusSign }))
      | _ => .error .indexError

/-- `max_retries` inside `_make_request`. -/
def max_retries : Nat := 3

/-- Worker for `make_request`: `remaining` attempts left, `made` GETs already
issued, `sleeps` delays slept so far.  A failed attempt that is not the last
computes `delay = (2 ** attempt) + (time.random() * 0.1)`; since the `time`
module has no attribute `random`, that line raises `AttributeError` (outside
the `try`, so it escapes the function). -/
def makeRequestAux (outcome : Nat → Option Soup) :
    Nat → Nat → List Nat → FetchTrace
  | 0, made, sleeps => { attempts := made, sleeps := sleeps, result := .ok none }
  | remaining + 1, made, sleeps =>
    match outcome (max_retries - (remaining + 1)) with
    | some page =>
      { attempts := made + 1, sleeps := sleeps, result := .ok (some page) }
    | none =>
      if max_retries - (remaining + 1) < max_retries - 1 then
        if pySetContains timeModuleNames randomName then
          makeRequestAux outcome remaining (made + 1)
            (sleeps ++ [2 ^ (max_retries - (remaining + 1))])
        else
          { attempts := made + 1, sleeps := sleeps,
            result := .error .attributeError }
      else
        makeRequestAux outcome remaining (made + 1) sleeps

/-- `_make_request` (lines 125-149), with `outcome n` the result of the
`n`-th GET attempt on this URL (`some` = success, `none` =
`requests.RequestException`). -/
def make_request (outcome : Nat → Option Soup) : FetchTrace :=
  makeRequestAux outcome max_retries 0 []

/-- One iteration of the row loop in `scrape_ipo_data` (lines 182-190):
`ipo_id, ipo_data = self._extract_ipo_data(row)` unpacks the helper's result,
so a `None` result raises `TypeError`; a known id is skipped; a new id is
appended to the accumulator and added to the in-memory set. -/
def processRow (st : List String × List IpoData) (row : List Cell) :
    Except PyErr (List String × List IpoData) :=
  match extract_ipo_data row with
  | .error e => .error e
  | .ok none => .error .typeError
  | .ok (some (ipoId, ipoData)) =>
    if pySetContains st.1 ipoId then .ok st
    else .ok (pySetAdd st.1 ipoId, st.2 ++ [ipoData])

/-- The row loop over one table body. -/
def processRows : List (List Cell) → (List String × List IpoData) →
    Except PyErr (List String × List IpoData)
  | [], st => .ok st
  | row :: rest, st =>
    match processRow st row with
    | .error e => .error e
    | .ok st' => processRows rest st'

/-- Handling of one fetched page (lines 175-190): `if not table: continue`,
otherwise run the row loop. -/
def processPageSoup (soup : Soup) (st : List String × List IpoData) :
    Except PyErr (List String × List IpoData) :=
  match soup.table with
  | none => .ok st
  | some rows => processRows rows st

/-- The page loop of `scrape_ipo_data` (lines 168-193) over the given page
numbers.  A fetch whose `_make_request` raises propagates the exception; a
falsy response is skipped with `continue` (the pacing `time.sleep(2)` has no
observable effect here). -/
def processPages (site : Site) : List Nat → (List String × List IpoData) →
    Except PyErr (List String × List IpoData)
  | [], st => .ok st
  | p :: rest, st =>
    match (make_request (fun _ => site.pageAt p)).result with
    | .error e => .error e
    | .ok none => processPages site rest st
    | .ok (some soup) =>
      match processPageSoup soup st with
      | .error e => .error e
      | .ok st' => processPages site rest st'

/-- `scrape_ipo_data` (lines 151-209) run on a fresh `IPOScraper()` (as
`main` does), returning the final file state, the accumulated
`all_ipo_data`, and the writes performed in order.  The constructor's
`self.processed_ipos = self._load_processed_ipos()` runs before
`self.processed_file` is assigned, hence `load_processed_ipos false`. -/
def scrape_ipo_data (site : Site) (fs : FileState) :
    Except PyErr (FileState × List IpoData × List WriteEvent) :=
  match (make_request (fun _ => site.initial)).result with
  | .error e => .error e
  | .ok none => .ok (fs, [], [])
  | .ok (some soup) =>
    match processPages site
        ((List.range (extract_pagination_info soup).toNat).map (· + 1))
        (load_processed_ipos false fs.processedFile, []) with
    | .error e => .error e
    | .ok (processed1, acc) =>
      if acc.isEmpty then .ok (fs, acc, [])
      else
        .ok ({ outputFile := some ((fs.outputFile.getD []) ++ acc),
               processedFile := some (save_processed_ipos processed1) },
             acc,
             [.writeOutput ((fs.outputFile.getD []) ++ acc),
              .writeProcessed (save_processed_ipos processed1)])

/-! ### Concrete inputs used to exercise the embedded code -/

/-- Record identifier synthesized for a record, `<company>_<listing date>`. -/
def recordId (r : IpoData) : String :=
  r.company ++ "_" ++ r.listingDate

/-- A link to a company page. -/
def demoAnchor : Anchor := { text := "A", href := "/a" }

/-- A well-formed table row: 6 cells, first cell linked. -/
def demoRow : List Cell :=
  [{ text := "", anchor := some demoAnchor },
   { text := "d", anchor := none },
   { text := "1", anchor := none },
   { text := "₹2", anchor := none },
   { text := "₹3", anchor := none },
   { text := "⇡4%", anchor := none }]

/-- The record `demoRow` yields. -/
def demoRec : IpoData :=
  { company := "A", companyLink := "https://www.screener.in/a",
    listingDate := "d", ipoMCap := "1", ipoPrice := "2", currentPrice := "3",
    percentChange := "+4%" }

/-- The identifier `demoRow` yields. -/
def demoId : String := "A_d"

/-- A single page holding just `demoRow`, no pagination div. -/
def demoSoup : Soup := { pagination := none, table := some [demoRow] }

/-- A one-page site serving `demoSoup` everywhere. -/
def demoSite : Site :=
  { initial := some demoSoup, pageAt := fun _ => some demoSoup }

/-- No files on disk yet. -/
def emptyFS : FileState := { outputFile := none, processedFile := none }

/-- The file state left behind by a first run of `demoSite` on `emptyFS`. -/
def demoFS1 : FileState :=
  { outputFile := some [demoRec], processedFile := some [demoId] }

/-- A row of 6 cells whose first cell holds no link. -/
def rowNoLink : List Cell :=
  [{ text := "B", anchor := none },
   { text := "d", anchor := none },
   { text := "1", anchor := none },
   { text := "2", anchor := none },
   { text := "3", anchor := none },
   { text := "4%", anchor := none }]

/-- A one-page site whose table starts with `rowNoLink`, followed by a
perfectly good row. -/
def siteNoLinkRow : Site :=
  { initial := some { pagination := none, table := some [rowNoLink, demoRow] },
    pageAt := fun _ =>
      some { pagination := none, table := some [rowNoLink, demoRow] } }

/-- A row with a single cell that does contain a link. -/
def shortRow : List Cell :=
  [{ text := "", anchor := some demoAnchor }]

/-- A one-page site whose table holds just `shortRow`. -/
def siteShortRow : Site :=
  { initial := some { pagination := none, table := some [shortRow] },
    pageAt := fun _ => some { pagination := none, table := some [shortRow] } }

/-- Raw listing-date cell text with surrounding whitespace. -/
def c4RawListing : String := " 15 Jan 2024 "

/-- Raw percent-change cell text with surrounding whitespace. -/
def c4RawPercent : String := " ⇡8.0% "

/-- A well-formed row whose listing-date and percent-change cells carry
surrounding whitespace. -/
def c4Row : List Cell :=
  [{ text := "", anchor := some { text := " Acme ", href := "/c" } },
   { text := c4RawListing, anchor := none },
   { text := "90", anchor := none },
   { text := "₹10", anchor := none },
   { text := "₹12", anchor := none },
   { text := c4RawPercent, anchor := none }]

/-- The record `c4Row` yields. -/
def c4Rec : IpoData :=
  { company := "Acme", companyLink := "https://www.screener.in/c",
    listingDate := "15 Jan 2024", ipoMCap := "90", ipoPrice := "10",
    currentPrice := "12", percentChange := "+8.0%" }

/-- A page whose pagination div links to pages 1, 3 and 5 only. -/
def pag135Soup : Soup :=
  { pagination := some
      [{ text := "1", href := "/ipo/recent/?page=1" },
       { text := "3", href := "/ipo/recent/?page=3" },
       { text := "5", href := "/ipo/recent/?page=5" }],
    table := none }

/-! ### Helper lemmas about the set primitives -/

lemma pySetContains_iff (s : List String) (x : String) :
    pySetContains s x = true ↔ x ∈ s := by
  induction s with
  | nil => simp [pySetContains]
  | cons y rest ih =>
    by_cases h : y = x
    · subst h; simp [pySetContains]
    · simp [pySetContains, h, ih, List.mem_cons]
      exact fun hx => (h hx.symm).elim

lemma mem_pySetOfList (l : List String) (x : String) :
    x ∈ pySetOfList l ↔ x ∈ l := by
  induction l with
  | nil => simp [pySetOfList]
  | cons y rest ih =>
    rw [pySetOfList]
    by_cases h : pySetContains rest y
    · have hy : y ∈ rest := (pySetContains_iff rest y).1 h
      rw [if_pos h]
      simp only [ih, List.mem_cons]
      constructor
      · exact fun hx => Or.inr hx
      · rintro (rfl | hx)
        · exact hy
        · exact hx
    · rw [if_neg h]
      simp only [List.mem_cons, ih]

lemma nodup_pySetOfList (l : List String) : (pySetOfList l).Nodup := by
  induction l with
  | nil => simp [pySetOfList]
  | cons y rest ih =>
    by_cases h : pySetContains rest y
    · simpa [pySetOfList, h] using ih
    · have hy : y ∉ pySetOfList rest := by
        rw [mem_pySetOfList]
        intro hmem
        exact h ((pySetContains_iff rest y).2 hmem)
      simpa [pySetOfList, h, List.nodup_cons] using ⟨hy, ih⟩

/-! ### Claims C1-C4, C6, C10 -/

/-- C1: the claim says a row whose first cell has no link is skipped without
error and the page's remaining rows are still processed.  The helper
`_extract_ipo_data` does return `None` for such a row, but
`scrape_ipo_data` immediately unpacks the result with
`ipo_id, ipo_data = self._extract_ipo_data(row)`, so the run raises
`TypeError` on that row instead of continuing. -/
theorem c1_row_without_link_crashes :
    extract_ipo_data rowNoLink = .ok none
    ∧ scrape_ipo_data siteNoLinkRow emptyFS = .error .typeError := by
  decide

/-- C2: the claim says a linked row with fewer than 6 cells is silently
skipped.  The code reads `cells[1]` … `cells[5]` unconditionally once the
first cell has a link, so such a row raises `IndexError`, which escapes
`scrape_ipo_data`. -/
theorem c2_short_row_raises_index_error :
    extract_ipo_data shortRow = .error .indexError
    ∧ scrape_ipo_data siteShortRow emptyFS = .error .indexError := by
  decide

/-- C3: the claim says a URL failing on every attempt gets exactly 3 GET
attempts with backoff sleeps of roughly 1 and 2 time units and a `None`
return.  The backoff line computes `time.random()`, but the `time` module
has no attribute `random`, so after the first failed attempt the call raises
`AttributeError`: one attempt, no sleep, an exception instead of a failure
value. -/
theorem c3_retry_backoff_crashes :
    make_request (fun _ => none) =
      { attempts := 1, sleeps := [], result := .error .attributeError }
    ∧ pySetContains timeModuleNames randomName = false := by
  decide

/-- C4 counterexample: on a row whose listing-date cell is
`" 15 Jan 2024 "` and whose percent-change cell is `" ⇡8.0% "`, the code
strips surrounding whitespace in both the synthesized identifier and the
Percent Change field, so the identifier is not company name + underscore +
raw listing-date cell text, and the Percent Change field is not the raw cell
text with only the glyphs replaced. -/
theorem c4_counterexample :
    extract_ipo_data c4Row = .ok (some ("Acme_15 Jan 2024", c4Rec))
    ∧ ("Acme_15 Jan 2024" : String) ≠ c4Rec.company ++ "_" ++ c4RawListing
    ∧ c4Rec.percentChange ≠
        pyReplace (pyReplace c4RawPercent downGlyph minusSign) upGlyph plusSign := by
  decide

/-- C4 (amended): for every row with at least 6 cells whose first cell
contains a link, extraction returns `(identifier, record)` where the
identifier is the company name, an underscore, and the listing-date cell
text stripped of surrounding whitespace (exactly the stored Listing Date
field); the IPO Price and Current Price fields are the cell texts with the
currency symbol removed and whitespace stripped; and the Percent Change
field is the cell text stripped of surrounding whitespace and then with the
down glyph replaced by a minus and the up glyph by a plus. -/
theorem c4_extracted_fields (t0 : String) (a : Anchor) (d1 d2 d3 d4 d5 : Cell)
    (rest : List Cell) :
    ∃ rec : IpoData,
      extract_ipo_data
          ({ text := t0, anchor := some a } :: d1 :: d2 :: d3 :: d4 :: d5 :: rest)
        = .ok (some (rec.company ++ "_" ++ rec.listingDate, rec))
      ∧ rec.company = pyStrip a.text
      ∧ rec.listingDate = pyStrip d1.text
      ∧ rec.ipoPrice = pyStrip (pyReplace d3.text rupeeSign emptyString)
      ∧ rec.currentPrice = pyStrip (pyReplace d4.text rupeeSign emptyString)
      ∧ rec.percentChange =
          pyReplace (pyReplace (pyStrip d5.text) downGlyph minusSign)
            upGlyph plusSign := by
  refine ⟨{ company := pyStrip a.text
            companyLink := base_url ++ a.href
            listingDate := pyStrip d1.text
            ipoMCap := pyStrip d2.text
            ipoPrice := pyStrip (pyReplace d3.text rupeeSign emptyString)
            currentPrice := pyStrip (pyReplace d4.text rupeeSign emptyString)
            percentChange :=
              pyReplace (pyReplace (pyStrip d5.text) downGlyph minusSign)
                upGlyph plusSign },
         rfl, rfl, rfl, rfl, rfl, rfl⟩

/-- C6: the claim says a second run against an unchanged site accumulates
zero new records.  In fact `__init__` assigns
`self.processed_ipos = self._load_processed_ipos()` before assigning
`self.processed_file`, so the load raises `AttributeError` internally, is
caught, and yields an empty set every run: the persisted Deduplication Set
is never consulted, and the second run re-accumulates every record and
appends duplicate rows. -/
theorem c6_second_run_not_idempotent :
    scrape_ipo_data demoSite emptyFS =
      .ok (demoFS1, [demoRec],
           [.writeOutput [demoRec], .writeProcessed [demoId]])
    ∧ scrape_ipo_data demoSite demoFS1 =
      .ok ({ outputFile := some [demoRec, demoRec],
             processedFile := some [demoId] },
           [demoRec],
           [.writeOutput [demoRec, demoRec], .writeProcessed [demoId]])
    ∧ load_processed_ipos false demoFS1.processedFile = []
    ∧ load_processed_ipos true demoFS1.processedFile = [demoId] := by
  decide

/-- C10: saving the Deduplication Set as a JSON list and loading it back
(with `self.processed_file` in place, as at every call site of
`_save_processed_ipos`) round-trips membership, and loading collapses any
duplicates of the stored list. -/
theorem c10_dedup_roundtrip (s : List String) (x : String) :
    (x ∈ load_processed_ipos true (some (save_processed_ipos s)) ↔ x ∈ s)
    ∧ (load_processed_ipos true (some s)).Nodup := by
  constructor
  · simpa [load_processed_ipos, save_processed_ipos] using mem_pySetOfList s x
  · simpa [load_processed_ipos] using nodup_pySetOfList s

/-! ### Claim C5: pagination -/

lemma pagination_foldl_eq (links : List Anchor) (i : Int) :
    links.foldl
        (fun maxPage link =>
          match hrefPageNumber link.href with
          | some n => max maxPage n
          | none => maxPage)
        i
      = (pagesParsed links).foldl max i := by
  induction links generalizing i with
  | nil => rfl
  | cons a rest ih =>
    rw [List.foldl_cons]
    cases h : hrefPageNumber a.href with
    | none =>
      simp only [h, pagesParsed, List.filterMap_cons]
      exact ih i
    | some n =>
      simp only [h, pagesParsed, List.filterMap_cons]
      rw [List.foldl_cons]
      exact ih (max i n)

lemma le_foldl_max (l : List Int) (i : Int) : i ≤ l.foldl max i := by
  induction l generalizing i with
  | nil => exact le_refl i
  | cons a rest ih =>
    rw [List.foldl_cons]
    exact le_trans (le_max_left i a) (ih (max i a))

lemma foldl_max_is_ub (l : List Int) (i : Int) :
    ∀ n ∈ l, n ≤ l.foldl max i := by
  induction l generalizing i with
  | nil => intro n hn; cases hn
  | cons a rest ih =>
    intro n hn
    rw [List.foldl_cons]
    rcases List.mem_cons.1 hn with rfl | hn
    · exact le_trans (le_max_right i n) (le_foldl_max rest (max i n))
    · exact ih (max i a) n hn

lemma foldl_max_cases (l : List Int) (i : Int) :
    l.foldl max i = i ∨ l.foldl max i ∈ l := by
  induction l generalizing i with
  | nil => exact Or.inl rfl
  | cons a rest ih =>
    rw [List.foldl_cons]
    rcases ih (max i a) with h | h
    · rcases max_choice i a with hm | hm
      · exact Or.inl (h.trans hm)
      · refine Or.inr ?_
        rw [h, hm]
        exact List.mem_cons_self a rest
    · exact Or.inr (List.mem_cons_of_mem a h)

/-- C5: `_extract_pagination_info` always returns at least 1; returns 1 when
the pagination div is absent; when it is present, the result is an upper
bound of all page numbers parsed from the links and is either one of them or
the default 1 (so it is the maximum parsed page number, defaulting to 1 when
none parse); and on a pagination div linking to pages 1, 3 and 5 only it
returns 5. -/
theorem c5_page_count (soup : Soup) :
    1 ≤ extract_pagination_info soup
    ∧ (soup.pagination = none → extract_pagination_info soup = 1)
    ∧ (∀ links, soup.pagination = some links →
        (∀ n ∈ pagesParsed links, n ≤ extract_pagination_info soup)
        ∧ (extract_pagination_info soup = 1
           ∨ extract_pagination_info soup ∈ pagesParsed links))
    ∧ extract_pagination_info pag135Soup = 5 := by
  obtain ⟨pg, tb⟩ := soup
  cases pg with
  | none =>
    refine ⟨le_refl 1, fun _ => rfl, ?_, by decide⟩
    intro links hlinks
    cases hlinks
  | some links =>
    have hval : extract_pagination_info ⟨some links, tb⟩
        = (pagesParsed links).foldl max 1 := pagination_foldl_eq links 1
    refine ⟨?_, ?_, ?_, by decide⟩
    · rw [hval]; exact le_foldl_max (pagesParsed links) 1
    · intro hnone; cases hnone
    · intro links' hlinks'
      cases hlinks'
      rw [hval]
      exact ⟨foldl_max_is_ub (pagesParsed links) 1,
             foldl_max_cases (pagesParsed links) 1⟩

/-- Witness for C5 at concrete pages: a page with no pagination div yields 1,
and the 1-3-5 pagination div yields 5. -/
theorem c5_page_count_witness :
    extract_pagination_info demoSoup = 1
    ∧ extract_pagination_info pag135Soup = 5 :=
  ⟨(c5_page_count demoSoup).2.1 rfl, (c5_page_count pag135Soup).2.2.2⟩

/-! ### Inversion of a successful run -/

lemma scrape_ok_inv (site : Site) (fs : FileState)
    (out : FileState × List IpoData × List WriteEvent)
    (h : scrape_ipo_data site fs = .ok out) :
    (out = (fs, [], []) ∧ out.2.1 = [])
    ∨ ∃ soup processed1,
        processPages site
            ((List.range (extract_pagination_info soup).toNat).map (· + 1))
            (load_processed_ipos false fs.processedFile, [])
          = .ok (processed1, out.2.1)
        ∧ out.2.1 ≠ []
        ∧ out = ({ outputFile := some ((fs.outputFile.getD []) ++ out.2.1),
                   processedFile := some (save_processed_ipos processed1) },
                 out.2.1,
                 [.writeOutput ((fs.outputFile.getD []) ++ out.2.1),
                  .writeProcessed (save_processed_ipos processed1)]) := by
  unfold scrape_ipo_data at h
  split at h
  · exact Except.noConfusion h
  · injection h with h'
    subst h'
    exact Or.inl ⟨rfl, rfl⟩
  · rename_i soup hsoup
    split at h
    · exact Except.noConfusion h
    · rename_i processed1 acc heq
      split at h
      · rename_i hEmpty
        injection h with h'
        subst h'
        have hacc : acc = [] := by simpa using hEmpty
        exact Or.inl ⟨by rw [hacc], by simpa using hacc⟩
      · rename_i hEmpty
        injection h with h'
        subst h'
        refine Or.inr ⟨soup, processed1, heq, ?_, rfl⟩
        intro hc
        exact hEmpty (by simp [show acc = [] from hc])

/-! ### Claim C7 -/

/-- C7: a run that completes and accumulated at least one new record
rewrites the Output Table as the previously existing rows, in their original
order, followed by the new records; in particular the table never loses a
row and never has fewer rows after the run than before. -/
theorem c7_output_append_preserves_rows (site : Site) (fs fs1 : FileState)
    (acc : List IpoData) (w : List WriteEvent)
    (h : scrape_ipo_data site fs = .ok (fs1, acc, w)) (hne : acc ≠ []) :
    fs1.outputFile = some ((fs.outputFile.getD []) ++ acc)
    ∧ (fs.outputFile.getD []).length ≤ (fs1.outputFile.getD []).length := by
  rcases scrape_ok_inv site fs _ h with ⟨_, hacc⟩ | ⟨soup, p1, _, _, heq⟩
  · exact absurd hacc hne
  · have hfs1 : fs1 = { outputFile := some ((fs.outputFile.getD []) ++ acc),
                        processedFile := some (save_processed_ipos p1) } :=
      congrArg Prod.fst heq
    constructor
    · rw [hfs1]
    · rw [hfs1]
      simp [List.length_append]

/-- Witness for C7: a concrete first run over `demoSite` appends its one new
record after the (empty) existing table. -/
theorem c7_output_append_witness :
    demoFS1.outputFile = some ((emptyFS.outputFile.getD []) ++ [demoRec])
    ∧ (emptyFS.outputFile.getD []).length
        ≤ (demoFS1.outputFile.getD []).length :=
  c7_output_append_preserves_rows demoSite emptyFS demoFS1 [demoRec]
    [.writeOutput [demoRec], .writeProcessed [demoId]]
    (by decide) (by decide)

/-! ### Claim C8 -/

/-- C8: a completed run that accumulated no new record writes nothing —
both on-disk stores are exactly as before; a run with new records performs
exactly two writes, the Output Table first and the Deduplication Set
second. -/
theorem c8_no_new_records_no_writes (site : Site) (fs fs1 : FileState)
    (acc : List IpoData) (w : List WriteEvent)
    (h : scrape_ipo_data site fs = .ok (fs1, acc, w)) :
    (acc = [] → fs1 = fs ∧ w = [])
    ∧ (acc ≠ [] → ∃ ids,
        fs1 = { outputFile := some ((fs.outputFile.getD []) ++ acc),
                processedFile := some ids }
        ∧ w = [.writeOutput ((fs.outputFile.getD []) ++ acc),
               .writeProcessed ids]) := by
  rcases scrape_ok_inv site fs _ h with ⟨heq, hacc⟩ | ⟨soup, p1, _, hne, heq⟩
  · constructor
    · intro _
      exact ⟨congrArg Prod.fst heq, congrArg (fun t => t.2.2) heq⟩
    · intro hne
      exact absurd hacc hne
  · constructor
    · intro hc
      exact absurd hc hne
    · intro _
      exact ⟨save_processed_ipos p1,
             congrArg Prod.fst heq, congrArg (fun t => t.2.2) heq⟩

/-- Witness for C8: the concrete first run over `demoSite` writes the Output
Table and then the Deduplication Set. -/
theorem c8_no_new_records_no_writes_witness :
    ∃ ids,
      demoFS1 = { outputFile := some ((emptyFS.outputFile.getD []) ++ [demoRec]),
                  processedFile := some ids }
      ∧ [WriteEvent.writeOutput [demoRec], WriteEvent.writeProcessed [demoId]]
        = [.writeOutput ((emptyFS.outputFile.getD []) ++ [demoRec]),
           .writeProcessed ids] :=
  (c8_no_new_records_no_writes demoSite emptyFS demoFS1 [demoRec]
      [.writeOutput [demoRec], .writeProcessed [demoId]] (by decide)).2
    (by decide)

/-! ### Claim C9: distinct identifiers within one run -/

lemma pySetContains_append (s t : List String) (x : String) :
    pySetContains (s ++ t) x = (pySetContains s x || pySetContains t x) := by
  induction s with
  | nil => simp [pySetContains]
  | cons y rest ih =>
    by_cases h : y = x
    · simp [pySetContains, h]
    · simp [pySetContains, h, ih]

lemma pySetAdd_contains_self (s : List String) (x : String) :
    pySetContains (pySetAdd s x) x = true := by
  unfold pySetAdd
  by_cases h : pySetContains s x
  · rw [if_pos h]; exact h
  · rw [if_neg h, pySetContains_append]
    simp [pySetContains]

lemma pySetAdd_contains_mono (s : List String) (x y : String)
    (h : pySetContains s y = true) :
    pySetContains (pySetAdd s x) y = true := by
  unfold pySetAdd
  by_cases hc : pySetContains s x
  · rw [if_pos hc]; exact h
  · rw [if_neg hc, pySetContains_append, h]
    rfl

/-- Invariant carried through the row loop: every accumulated record's
identifier is already in the in-memory set, and the accumulated identifiers
are pairwise distinct. -/
def RowInv (st : List String × List IpoData) : Prop :=
  (∀ r ∈ st.2, pySetContains st.1 (recordId r) = true)
  ∧ (st.2.map recordId).Nodup

lemma extract_id (row : List Cell) (i : String) (d : IpoData)
    (h : extract_ipo_data row = .ok (some (i, d))) :
    i = recordId d := by
  unfold extract_ipo_data at h
  split at h
  · simp at h
  · split at h
    · simp at h
    · split at h
      · simp only [Except.ok.injEq, Option.some.injEq, Prod.mk.injEq] at h
        obtain ⟨h1, h2⟩ := h
        subst h2
        exact h1.symm
      · simp at h

lemma processRow_inv (st st' : List String × List IpoData) (row : List Cell)
    (h : processRow st row = .ok st') (hi : RowInv st) : RowInv st' := by
  unfold processRow at h
  cases hex : extract_ipo_data row with
  | error e => rw [hex] at h; exact Except.noConfusion h
  | ok o =>
    cases o with
    | none => rw [hex] at h; exact Except.noConfusion h
    | some p =>
      obtain ⟨i, d⟩ := p
      rw [hex] at h
      dsimp at h
      by_cases hc : pySetContains st.1 i
      · rw [if_pos hc] at h
        injection h with h'
        subst h'
        exact hi
      · rw [if_neg hc] at h
        injection h with h'
        subst h'
        have hid : i = recordId d := extract_id row i d hex
        constructor
        · intro r hr
          rcases List.mem_append.1 hr with hr | hr
          · exact pySetAdd_contains_mono _ _ _ (hi.1 r hr)
          · have : r = d := by simpa using hr
            subst this
            rw [← hid]
            exact pySetAdd_contains_self st.1 i
        · show ((st.2 ++ [d]).map recordId).Nodup
          rw [List.map_append]
          refine List.Nodup.append hi.2 (by simp) ?_
          intro a ha hb
          have hb' : a = recordId d := by simpa using hb
          subst hb'
          rcases List.mem_map.1 ha with ⟨r, hr, hrid⟩
          have : pySetContains st.1 (recordId d) = true := by
            rw [← hrid]; exact hi.1 r hr
          rw [← hid] at this
          exact hc this

lemma processRows_inv (rows : List (List Cell))
    (st st' : List String × List IpoData)
    (h : processRows rows st = .ok st') (hi : RowInv st) : RowInv st' := by
  induction rows generalizing st with
  | nil =>
    injection h with h'
    subst h'
    exact hi
  | cons row rest ih =>
    unfold processRows at h
    cases hr : processRow st row with
    | error e => rw [hr] at h; exact Except.noConfusion h
    | ok st1 =>
      rw [hr] at h
      exact ih st1 h (processRow_inv st st1 row hr hi)

lemma processPageSoup_inv (soup : Soup) (st st' : List String × List IpoData)
    (h : processPageSoup soup st = .ok st') (hi : RowInv st) : RowInv st' := by
  unfold processPageSoup at h
  cases htb : soup.table with
  | none =>
    rw [htb] at h
    injection h with h'
    subst h'
    exact hi
  | some rows =>
    rw [htb] at h
    exact processRows_inv rows st st' h hi

lemma processPages_inv (site : Site) (pages : List Nat)
    (st st' : List String × List IpoData)
    (h : processPages site pages st = .ok st') (hi : RowInv st) : RowInv st' := by
  induction pages generalizing st with
  | nil =>
    injection h with h'
    subst h'
    exact hi
  | cons p rest ih =>
    unfold processPages at h
    cases hf : (make_request (fun _ => site.pageAt p)).result with
    | error e => rw [hf] at h; exact Except.noConfusion h
    | ok o =>
      cases o with
      | none =>
        rw [hf] at h
        exact ih st h hi
      | some soup =>
        rw [hf] at h
        dsimp only at h
        cases hs : processPageSoup soup st with
        | error e => rw [hs] at h; exact Except.noConfusion h
        | ok st1 =>
          rw [hs] at h
          exact ih st1 h (processPageSoup_inv soup st st1 hs hi)

/-- C9: within one completed run, the accumulated new records have pairwise
distinct identifiers — a record is appended exactly when its identifier is
absent from the in-memory Deduplication Set, and the identifier is added at
the same step, so any later occurrence of the same identifier is skipped. -/
theorem c9_accumulated_ids_nodup (site : Site) (fs fs1 : FileState)
    (acc : List IpoData) (w : List WriteEvent)
    (h : scrape_ipo_data site fs = .ok (fs1, acc, w)) :
    (acc.map recordId).Nodup := by
  rcases scrape_ok_inv site fs _ h with ⟨_, hacc⟩ | ⟨soup, p1, hp, _, _⟩
  · have : acc = [] := hacc
    simp [this]
  · have hinv : RowInv (p1, acc) :=
      processPages_inv site _ _ _ hp ⟨fun r hr => absurd hr (List.not_mem_nil r), by simp⟩
  -- the starting accumulator is empty, so the invariant holds initially
    exact hinv.2

/-- Witness for C9: the concrete first run over `demoSite` accumulates one
record, with (trivially) distinct identifiers. -/
theorem c9_accumulated_ids_nodup_witness :
    (([demoRec]).map recordId).Nodup :=
  c9_accumulated_ids_nodup demoSite emptyFS demoFS1 [demoRec]
    [.writeOutput [demoRec], .writeProcessed [demoId]] (by decide)
